import Mathlib

/-!
Verification development for the Global Beverage Corporation Exchange
(`gbce/gbce.py`): stock dividend formulas, trade recording, and the two
aggregate queries (volume-weighted price over a time window, all-share
index).  Every definition below is a shallow embedding of the Python
source; numbers are embedded as exact rationals, `datetime` values as
rationals on one time axis (the unit is minutes, so that
`timedelta(minutes=duration)` is subtraction of `duration`), and Python
exceptions as explicit error values.
-/

namespace GBCE

/-- The Python exceptions the arithmetic in `gbce.py` can raise:
`ZeroDivisionError` from `/` with a zero denominator, `TypeError` from
arithmetic on a `None` attribute. -/
inductive PyError where
  | zeroDivision
  | typeError
deriving DecidableEq, Repr

/-- Result of a numeric Python computation: a value, or a raised exception. -/
inductive PyResult where
  | ok (v : ℚ)
  | raised (e : PyError)
deriving DecidableEq, Repr

/-- Models Python `str.upper()`: uppercase every character (stock symbols in
this program are ASCII, where `Char.toUpper` and `str.upper` agree).
Defined directly on the character list so that it evaluates by `decide`. -/
def pyUpper (s : String) : String := ⟨s.data.map Char.toUpper⟩

/-- The two concrete subclasses of the abstract `Stock` class. -/
inductive StockKind where
  | common
  | preferred
deriving DecidableEq, Repr

/-- The `Stock` attribute record: `symbol`, `par_value`, and the two optional
dividend attributes (`None` embedded as `Option.none`).  The subclass the
object was built from is carried as `kind`, which is what Python's dynamic
dispatch of `dividend_yield` selects on. -/
structure Stock where
  kind : StockKind
  symbol : String
  par_value : ℚ
  last_dividend : Option ℚ
  fixed_dividend : Option ℚ
deriving DecidableEq, Repr

/-- `Stock.__init__(self, symbol, par_value, last_dividend=None,
fixed_dividend=None)`: stores `symbol.upper()` and the remaining attributes
unchanged.  `kind` records which subclass was constructed. -/
def mkStock (kind : StockKind) (symbol : String) (par_value : ℚ)
    (last_dividend : Option ℚ) (fixed_dividend : Option ℚ) : Stock :=
  { kind := kind
    symbol := pyUpper symbol
    par_value := par_value
    last_dividend := last_dividend
    fixed_dividend := fixed_dividend }

/-- `dividend_yield(self, price)`, with Python's dynamic dispatch written as a
match on the subclass:
`CommonTypeStock` returns `self.last_dividend / price`,
`PreferredTypeStock` returns `self.fixed_dividend * self.par_value / price`.
A `None` dividend attribute raises `TypeError` (before the division is
attempted, as in Python's left-to-right evaluation); `price = 0` raises
`ZeroDivisionError`.  No other validation exists in the source. -/
def dividend_yield (s : Stock) (price : ℚ) : PyResult :=
  match s.kind with
  | .common =>
      match s.last_dividend with
      | none => .raised .typeError
      | some d => if price = 0 then .raised .zeroDivision else .ok (d / price)
  | .preferred =>
      match s.fixed_dividend with
      | none => .raised .typeError
      | some f => if price = 0 then .raised .zeroDivision else .ok (f * s.par_value / price)

/-- `pe_ratio(self, price) = 1 / self.dividend_yield(price)`: an exception
from `dividend_yield` propagates; a zero yield raises `ZeroDivisionError`. -/
def pe_ratio (s : Stock) (price : ℚ) : PyResult :=
  match dividend_yield s price with
  | .raised e => .raised e
  | .ok y => if y = 0 then .raised .zeroDivision else .ok (1 / y)

/-- The `TradeType` enum. -/
inductive TradeType where
  | buy
  | sell
deriving DecidableEq, Repr

/-- The `Trade` attribute record.  `timestamp` is a point on the (rational)
time axis. -/
structure Trade where
  stock : Stock
  quantity : ℚ
  trade_type : TradeType
  price : ℚ
  timestamp : ℚ
deriving DecidableEq, Repr

/-- `Trade.__init__(self, stock, quantity, trade_type, price)`: stores the
four arguments and sets `self.timestamp = datetime.utcnow()`.  The ambient
clock reading `datetime.utcnow()` is the explicit argument `now`; the
constructor itself has no timestamp parameter, so the stored timestamp is
always the construction-time clock. -/
def mkTrade (stock : Stock) (quantity : ℚ) (trade_type : TradeType)
    (price : ℚ) (now : ℚ) : Trade :=
  { stock := stock
    quantity := quantity
    trade_type := trade_type
    price := price
    timestamp := now }

/-- `StockExchange.record_trade`: `self.trades.append(trade)`.  The exchange
state is its `trades` list. -/
def record_trade (trades : List Trade) (trade : Trade) : List Trade :=
  trades ++ [trade]

/-- `StockExchange.vwap(trades) = sum(price*quantity) / sum(quantity)`;
Python raises `ZeroDivisionError` when the total quantity is zero. -/
def vwap (trades : List Trade) : PyResult :=
  if (trades.map (fun t => t.quantity)).sum = 0 then .raised .zeroDivision
  else .ok ((trades.map (fun t => t.price * t.quantity)).sum /
            (trades.map (fun t => t.quantity)).sum)

/-- The list-comprehension filter in `volume_weight_stock_price`:
`trade.stock.symbol == symbol.upper() and
 trade.timestamp >= datetime.utcnow() - timedelta(minutes=duration)`.
Note the source checks only the lower bound of the window. -/
def inWindow (symbol : String) (duration now : ℚ) (t : Trade) : Bool :=
  t.stock.symbol == pyUpper symbol && decide (now - duration ≤ t.timestamp)

/-- Result of `volume_weight_stock_price`: Python's `None` (no data), a
raised exception, or a price. -/
inductive QueryResult where
  | noData
  | raised (e : PyError)
  | price (v : ℚ)
deriving DecidableEq, Repr

/-- `StockExchange.volume_weight_stock_price(symbol, duration)`: filter the
log by `inWindow`, return `None` if nothing matched, else `vwap` of the
selection (whose `ZeroDivisionError`, if any, propagates). -/
def volume_weight_stock_price (trades : List Trade) (symbol : String)
    (duration now : ℚ) : QueryResult :=
  let sel := trades.filter (inWindow symbol duration now)
  if sel.isEmpty then .noData
  else
    match vwap sel with
    | .raised e => .raised e
    | .ok v => .price v

/-- One step of collecting `itertools.groupby` runs (the `foldr` step):
a trade joins the current front run when its key `stock.symbol` equals the
run's key, and otherwise starts a new run. -/
def runStep (t : Trade) (acc : List (List Trade)) : List (List Trade) :=
  match acc with
  | (u :: g) :: gs =>
      if t.stock.symbol = u.stock.symbol then (t :: u :: g) :: gs
      else [t] :: (u :: g) :: gs
  | _ => [[t]]

/-- `itertools.groupby(trades, key=attrgetter('stock.symbol'))` on the raw
(unsorted) log: the maximal ADJACENT runs of equal symbol, in order.  This
is the grouping `all_share_index` actually performs — a symbol whose trades
are interleaved with other symbols yields several runs. -/
def groupRuns (trades : List Trade) : List (List Trade) :=
  trades.foldr runStep []

/-- Result of an intermediate computation producing a list of prices. -/
inductive PricesResult where
  | ok (ps : List ℚ)
  | raised (e : PyError)
deriving DecidableEq, Repr

/-- The comprehension `[self.vwap(list(trades)) for symbol, trades in
stock_groups]`: the groups' vwaps left to right, the first raised exception
propagating. -/
def groupVwaps : List (List Trade) → PricesResult
  | [] => .ok []
  | g :: gs =>
      match vwap g with
      | .raised e => .raised e
      | .ok v =>
          match groupVwaps gs with
          | .raised e => .raised e
          | .ok vs => .ok (v :: vs)

/-- Result of `all_share_index`.  `prices ps` stands for the final Python
value `reduce(mul, ps) ** (1/len(ps))`; that last power is a real-valued
operation, modelled separately by `gmeanR` below, so the embedding keeps
the exact list of per-group prices it is applied to. -/
inductive IndexResult where
  | noData
  | raised (e : PyError)
  | prices (ps : List ℚ)
deriving DecidableEq, Repr

/-- `StockExchange.all_share_index()`: `None` on an empty log; otherwise the
per-run vwaps of `groupby(self.trades, key=attrgetter('stock.symbol'))` on
the unsorted log, to which the source applies
`reduce(mul, prices) ** (1/len(prices))`. -/
def all_share_index (trades : List Trade) : IndexResult :=
  if trades.isEmpty then .noData
  else
    match groupVwaps (groupRuns trades) with
    | .raised e => .raised e
    | .ok ps => .prices ps

/-- The real value of `reduce(mul, ps) ** (1/len(ps))`: the geometric mean
that the source's final floating-point power computes. -/
noncomputable def gmeanR (ps : List ℚ) : ℝ :=
  ((ps.map (fun q => (q : ℝ))).prod) ^ ((1 : ℝ) / (ps.length : ℝ))

/-- Spec-side (for comparison with the code): the distinct stock symbols of
a log, in order of first appearance. -/
def distinctSymbols (trades : List Trade) : List String :=
  (trades.map (fun t => t.stock.symbol)).foldl
    (fun acc s => if s ∈ acc then acc else acc ++ [s]) []

/-- Spec-side (for comparison with the code): ALL trades of one symbol, as
one group — the true group-by the spec requires. -/
def symbolGroup (trades : List Trade) (s : String) : List Trade :=
  trades.filter (fun t => t.stock.symbol == s)

/-- Spec-side (for comparison with the code): the per-symbol volume-weighted
average prices, one per distinct symbol, each over ALL of that symbol's
trades. -/
def specSymbolVwaps (trades : List Trade) : List ℚ :=
  (distinctSymbols trades).map (fun s =>
    ((symbolGroup trades s).map (fun t => t.price * t.quantity)).sum /
    ((symbolGroup trades s).map (fun t => t.quantity)).sum)

/-- Spec-side (for comparison with the code): the trade filter stated by the
spec for `volume_weight_stock_price` — symbol matches case-insensitively and
the timestamp lies in `[now - duration, now]`, lower bound inclusive. -/
def specMatch (symbol : String) (duration now : ℚ) (t : Trade) : Bool :=
  pyUpper t.stock.symbol == pyUpper symbol &&
  decide (now - duration ≤ t.timestamp) && decide (t.timestamp ≤ now)

/-- A trade with its `trade_type` replaced by the fixed value `buy`: two
trades agree on everything except `trade_type` exactly when `stripType`
maps them to the same trade. -/
def stripType (t : Trade) : Trade :=
  { t with trade_type := .buy }

/-- A common stock with symbol AAA (constructed from lowercase input). -/
def stA : Stock := mkStock .common "aaa" 100 (some 8) none

/-- A common stock with symbol BBB. -/
def stB : Stock := mkStock .common "bbb" 100 (some 8) none

/-- A common stock with symbol XXX. -/
def stX : Stock := mkStock .common "xxx" 100 (some 8) none

/-- A common stock with symbol YYY. -/
def stY : Stock := mkStock .common "yyy" 100 (some 8) none

/-- The common stock POP of the source's own test suite. -/
def stP : Stock := mkStock .common "POP" 100 (some 8) none

/-- A log in which symbol AAA's trades are interleaved with a BBB trade:
AAA (quantity 1, price 2), then BBB (quantity 1, price 16), then AAA
(quantity 1, price 16). -/
def interleavedLog : List Trade :=
  [mkTrade stA 1 .buy 2 0, mkTrade stB 1 .buy 16 1, mkTrade stA 1 .buy 16 2]

/-- A second interleaved log: XXX (quantity 1, price 1), YYY (quantity 1,
price 8), XXX (quantity 1, price 8). -/
def interleavedLog2 : List Trade :=
  [mkTrade stX 1 .buy 1 0, mkTrade stY 1 .buy 8 1, mkTrade stX 1 .buy 8 2]

lemma gmeanR_code_runs_interleavedLog : gmeanR [2, 16, 16] = 8 := by
  have h1 : (([2, 16, 16] : List ℚ).map (fun q => (q : ℝ))).prod = 512 := by norm_num
  have h2 : ((([2, 16, 16] : List ℚ).length : ℕ) : ℝ) = 3 := by norm_num
  rw [gmeanR, h1, h2]
  rw [show (512 : ℝ) = (8 : ℝ) ^ (3 : ℝ) by
        rw [show (3 : ℝ) = ((3 : ℕ) : ℝ) by norm_num, Real.rpow_natCast]; norm_num,
      ← Real.rpow_mul (by norm_num : (0 : ℝ) ≤ 8)]
  norm_num

lemma gmeanR_spec_groups_interleavedLog : gmeanR [9, 16] = 12 := by
  have h1 : (([9, 16] : List ℚ).map (fun q => (q : ℝ))).prod = 144 := by norm_num
  have h2 : ((([9, 16] : List ℚ).length : ℕ) : ℝ) = 2 := by norm_num
  rw [gmeanR, h1, h2]
  rw [show (144 : ℝ) = (12 : ℝ) ^ (2 : ℝ) by
        rw [show (2 : ℝ) = ((2 : ℕ) : ℝ) by norm_num, Real.rpow_natCast]; norm_num,
      ← Real.rpow_mul (by norm_num : (0 : ℝ) ≤ 12)]
  norm_num

lemma gmeanR_code_runs_interleavedLog2 : gmeanR [1, 8, 8] = 4 := by
  have h1 : (([1, 8, 8] : List ℚ).map (fun q => (q : ℝ))).prod = 64 := by norm_num
  have h2 : ((([1, 8, 8] : List ℚ).length : ℕ) : ℝ) = 3 := by norm_num
  rw [gmeanR, h1, h2]
  rw [show (64 : ℝ) = (4 : ℝ) ^ (3 : ℝ) by
        rw [show (3 : ℝ) = ((3 : ℕ) : ℝ) by norm_num, Real.rpow_natCast]; norm_num,
      ← Real.rpow_mul (by norm_num : (0 : ℝ) ≤ 4)]
  norm_num

lemma gmeanR_spec_groups_interleavedLog2 : gmeanR [9/2, 8] = 6 := by
  have h1 : (([9/2, 8] : List ℚ).map (fun q => (q : ℝ))).prod = 36 := by norm_num
  have h2 : ((([9/2, 8] : List ℚ).length : ℕ) : ℝ) = 2 := by norm_num
  rw [gmeanR, h1, h2]
  rw [show (36 : ℝ) = (6 : ℝ) ^ (2 : ℝ) by
        rw [show (2 : ℝ) = ((2 : ℕ) : ℝ) by norm_num, Real.rpow_natCast]; norm_num,
      ← Real.rpow_mul (by norm_num : (0 : ℝ) ≤ 6)]
  norm_num

/-- C1: FALSE of the code — on `interleavedLog`, where symbol AAA's trades are
interleaved with a BBB trade, `all_share_index` does NOT compute AAA's
volume-weighted average price over all of AAA's trades as one group: its
`itertools.groupby` over the unsorted log splits AAA into two runs, giving
per-group prices `[2, 16, 16]` (three groups) instead of the true group-by's
per-symbol prices `[9, 16]`, and the resulting index value differs
(`gmeanR [2, 16, 16] = 8` while `gmeanR [9, 16] = 12`). -/
theorem all_share_index_splits_interleaved_symbol :
    all_share_index interleavedLog = .prices [2, 16, 16] ∧
    specSymbolVwaps interleavedLog = [9, 16] ∧
    gmeanR [2, 16, 16] ≠ gmeanR [9, 16] := by
  refine ⟨?_, ?_, ?_⟩
  · norm_num +decide [all_share_index, groupVwaps, groupRuns, runStep, vwap,
      interleavedLog, stA, stB, mkTrade, mkStock, pyUpper]
  · norm_num +decide [specSymbolVwaps, distinctSymbols, symbolGroup,
      interleavedLog, stA, stB, mkTrade, mkStock, pyUpper]
  · rw [gmeanR_code_runs_interleavedLog, gmeanR_spec_groups_interleavedLog]
    norm_num

/-- C3: the empty-log half is TRUE (`all_share_index [] = noData`), but the
geometric-mean half is FALSE of the code — on `interleavedLog2` the exponent
denominator is the number of adjacent runs (3), not the number of distinct
symbols (2), and the per-group prices are the run vwaps `[1, 8, 8]`, not the
per-symbol vwaps `[9/2, 8]`; the resulting index value differs
(`gmeanR [1, 8, 8] = 4` while `gmeanR [9/2, 8] = 6`). -/
theorem all_share_index_uses_run_count_not_distinct_symbols :
    all_share_index ([] : List Trade) = .noData ∧
    all_share_index interleavedLog2 = .prices [1, 8, 8] ∧
    (distinctSymbols interleavedLog2).length = 2 ∧
    specSymbolVwaps interleavedLog2 = [9/2, 8] ∧
    gmeanR [1, 8, 8] ≠ gmeanR [9/2, 8] := by
  refine ⟨by decide, ?_, by decide, ?_, ?_⟩
  · norm_num +decide [all_share_index, groupVwaps, groupRuns, runStep, vwap,
      interleavedLog2, stX, stY, mkTrade, mkStock, pyUpper]
  · norm_num +decide [specSymbolVwaps, distinctSymbols, symbolGroup,
      interleavedLog2, stX, stY, mkTrade, mkStock, pyUpper]
  · rw [gmeanR_code_runs_interleavedLog2, gmeanR_spec_groups_interleavedLog2]
    norm_num

lemma filter_spec_eq_code (log : List Trade) (symbol : String) (duration now : ℚ)
    (hts : ∀ t ∈ log, t.timestamp ≤ now)
    (hsym : ∀ t ∈ log, pyUpper t.stock.symbol = t.stock.symbol) :
    log.filter (specMatch symbol duration now) = log.filter (inWindow symbol duration now) := by
  apply List.filter_congr
  intro t ht
  simp only [specMatch, inWindow, hsym t ht]
  rw [decide_eq_true (hts t ht)]
  simp [Bool.and_true, Bool.and_assoc]

/-- A log whose matching set for the query (symbol AAA, window 5, now 0) is
non-empty but has total quantity zero: quantities 5 and -5. -/
def cancelLog : List Trade :=
  [mkTrade stA 5 .buy 10 0, mkTrade stA (-5) .buy 20 0]

/-- C2 counterexample: on `cancelLog` the set of trades matching the spec's
filter (symbol case-insensitively, timestamp in the window) is non-empty,
yet `volume_weight_stock_price` neither returns the no-data sentinel nor any
`Σ(price·qty)/Σ(qty)` value: it raises `ZeroDivisionError`, because the
matching trades' quantities sum to zero. -/
theorem volume_weight_stock_price_not_total :
    cancelLog.filter (specMatch "aaa" 5 0) ≠ [] ∧
    volume_weight_stock_price cancelLog "aaa" 5 0 = .raised .zeroDivision := by
  constructor
  · norm_num +decide [specMatch, cancelLog, stA, mkTrade, mkStock, pyUpper]
  · norm_num +decide [volume_weight_stock_price, vwap, inWindow, cancelLog,
      stA, mkTrade, mkStock, pyUpper]

/-- C2 (amended): for a log of recorded trades (timestamps at or before the
query's evaluation time, symbols normalized at construction — both always
true of trades built by the constructors), `volume_weight_stock_price`
returns the no-data sentinel exactly when no trade matches the symbol
case-insensitively with timestamp in `[now - duration, now]` (lower bound
inclusive), and otherwise — provided the matching trades' total quantity is
nonzero — returns `Σ(price·qty)/Σ(qty)` over exactly the matching set.
(When the matching set is non-empty with total quantity zero, the call
raises `ZeroDivisionError`.) -/
theorem volume_weight_stock_price_spec (log : List Trade) (symbol : String)
    (duration now : ℚ)
    (hts : ∀ t ∈ log, t.timestamp ≤ now)
    (hsym : ∀ t ∈ log, pyUpper t.stock.symbol = t.stock.symbol) :
    (log.filter (specMatch symbol duration now) = [] →
      volume_weight_stock_price log symbol duration now = .noData) ∧
    (log.filter (specMatch symbol duration now) ≠ [] →
      ((log.filter (specMatch symbol duration now)).map (fun t => t.quantity)).sum ≠ 0 →
      volume_weight_stock_price log symbol duration now =
        .price (((log.filter (specMatch symbol duration now)).map (fun t => t.price * t.quantity)).sum /
                ((log.filter (specMatch symbol duration now)).map (fun t => t.quantity)).sum)) := by
  have hf := filter_spec_eq_code log symbol duration now hts hsym
  rw [volume_weight_stock_price, ← hf]
  constructor
  · intro h0
    rw [h0]
    rfl
  · intro hne hq
    rw [if_neg (by simpa [List.isEmpty_iff] using hne)]
    rw [vwap, if_neg hq]

/-- The POP scenario of the source's tests: two POP trades, quantities 15
and 25, prices 100 and 60, timestamps 8 and 9. -/
def popLog : List Trade :=
  [mkTrade stP 15 .buy 100 8, mkTrade stP 25 .buy 60 9]

/-- Witness for C2's amended theorem: on `popLog`, queried as "pop" with
window 5 at time 10, the result is `(15·100 + 25·60)/(15 + 25) = 75`. -/
theorem volume_weight_stock_price_spec_witness :
    volume_weight_stock_price popLog "pop" 5 10 = .price 75 := by
  have h := (volume_weight_stock_price_spec popLog "pop" 5 10
      (by norm_num +decide [popLog, stP, mkTrade, mkStock])
      (by norm_num +decide [popLog, stP, mkTrade, mkStock, pyUpper])).2
      (by norm_num +decide [popLog, stP, mkTrade, mkStock, pyUpper, specMatch])
      (by norm_num +decide [popLog, stP, mkTrade, mkStock, pyUpper, specMatch])
  rw [h]
  norm_num +decide [popLog, stP, mkTrade, mkStock, pyUpper, specMatch]

/-- C4: for every price `p > 0`, a Common stock's `dividend_yield p` is
`last_dividend / p` and a Preferred stock's is
`fixed_dividend * par_value / p`. -/
theorem dividend_yield_formulas (sym : String) (par d f p : ℚ)
    (ld fd : Option ℚ) (hp : 0 < p) :
    dividend_yield (mkStock .common sym par (some d) fd) p = .ok (d / p) ∧
    dividend_yield (mkStock .preferred sym par ld (some f)) p = .ok (f * par / p) := by
  constructor <;> simp [dividend_yield, mkStock, hp.ne']

/-- Witness for C4 at the spec's GIN scenario values. -/
theorem dividend_yield_formulas_witness :
    dividend_yield (mkStock .common "GIN" 100 (some 23) none) 100 = .ok (23 / 100) ∧
    dividend_yield (mkStock .preferred "GIN" 100 (some 8) (some (1/50))) 100 =
      .ok ((1/50) * 100 / 100) :=
  dividend_yield_formulas "GIN" 100 23 (1/50) 100 (some 8) none (by norm_num)

/-- C5 counterexample: at the strictly negative price `-100`, neither stock
kind fails — `dividend_yield` returns a numeric result (the quotient with
the negative price), because the source only divides and a division by a
negative number raises nothing. -/
theorem dividend_yield_negative_price_no_error :
    ((-100 : ℚ) ≤ 0) ∧
    dividend_yield (mkStock .common "ALE" 60 (some 23) none) (-100) = .ok (23 / (-100)) ∧
    dividend_yield (mkStock .preferred "GIN" 100 none (some (1/50))) (-100) =
      .ok ((1/50) * 100 / (-100)) := by
  refine ⟨by norm_num, ?_, ?_⟩ <;>
    norm_num +decide [dividend_yield, mkStock, pyUpper]

/-- C5 (amended): `dividend_yield` fails with `ZeroDivisionError` exactly at
price 0, for both Common and Preferred stocks; at every nonzero price —
negative prices included — it returns the numeric quotient instead of
failing. -/
theorem dividend_yield_zero_price_only (sym : String) (par d f p : ℚ)
    (ld fd : Option ℚ) :
    dividend_yield (mkStock .common sym par (some d) fd) p =
      (if p = 0 then .raised .zeroDivision else .ok (d / p)) ∧
    dividend_yield (mkStock .preferred sym par ld (some f)) p =
      (if p = 0 then .raised .zeroDivision else .ok (f * par / p)) := by
  constructor <;> rfl

/-- C6: for every valid price `p > 0`, `pe_ratio p` equals
`1 / dividend_yield p` whenever the yield is a nonzero number, raises
`ZeroDivisionError` when the yield is zero, and propagates the failure when
the yield computation itself fails. -/
theorem pe_ratio_reciprocal_of_yield (s : Stock) (p : ℚ) (hp : 0 < p) :
    (∀ y, dividend_yield s p = .ok y → y ≠ 0 → pe_ratio s p = .ok (1 / y)) ∧
    (∀ y, dividend_yield s p = .ok y → y = 0 → pe_ratio s p = .raised .zeroDivision) ∧
    (∀ e, dividend_yield s p = .raised e → pe_ratio s p = .raised e) := by
  refine ⟨fun y hy hne => ?_, fun y hy h0 => ?_, fun e he => ?_⟩
  · simp [pe_ratio, hy, hne]
  · simp [pe_ratio, hy, h0]
  · simp [pe_ratio, he]

/-- Witness for C6 at the spec's ALE scenario: yield 23/100, so the P/E
ratio is its reciprocal. -/
theorem pe_ratio_reciprocal_of_yield_witness :
    pe_ratio (mkStock .common "ALE" 60 (some 23) none) 100 = .ok (1 / (23 / 100)) :=
  (pe_ratio_reciprocal_of_yield (mkStock .common "ALE" 60 (some 23) none) 100
      (by norm_num)).1 (23 / 100)
    (by norm_num +decide [dividend_yield, mkStock]) (by norm_num)

/-- C7: `record_trade` is append-only — starting from any log, a sequence of
`record_trade` calls leaves exactly the old log followed by the recorded
trades in call order (so no entry is mutated, removed or reordered, and
after N calls the log has grown by exactly N entries). -/
theorem record_trade_append_only (init trades : List Trade) :
    List.foldl record_trade init trades = init ++ trades ∧
    (List.foldl record_trade init trades).length = init.length + trades.length := by
  have h : ∀ (ts acc : List Trade), List.foldl record_trade acc ts = acc ++ ts := by
    intro ts
    induction ts with
    | nil => intro acc; simp
    | cons t ts ih =>
        intro acc
        rw [List.foldl_cons, ih, record_trade]
        simp
  refine ⟨h trades init, ?_⟩
  rw [h trades init, List.length_append]

/-- C8 counterexample: the `Trade` constructor has no timestamp parameter —
with the clock at time 10, no choice of the constructor's arguments (stock,
quantity, trade type, price) produces a trade whose stored timestamp is the
would-be supplied value 5. -/
theorem mkTrade_ignores_any_supplied_timestamp :
    ¬ ∃ (s : Stock) (q : ℚ) (tt : TradeType) (p : ℚ),
        (mkTrade s q tt p 10).timestamp = 5 := by
  rintro ⟨s, q, tt, p, h⟩
  rw [mkTrade] at h
  norm_num at h

/-- C8 (amended): `Trade` construction accepts no explicit timestamp — the
stored timestamp always equals the construction-time clock reading
(`datetime.utcnow()`), whatever the other arguments are. -/
theorem mkTrade_timestamp_always_clock (s : Stock) (q : ℚ) (tt : TradeType)
    (p now : ℚ) :
    (mkTrade s q tt p now).timestamp = now := rfl

/-- A reachable log holding one constructor-built trade with quantity 0. -/
def zeroQtyLog : List Trade := [mkTrade stA 0 .buy 100 10]

/-- C10: a log with a single quantity-0 trade (constructible, since the
`Trade` constructor validates nothing) makes the matching set of a
`volume_weight_stock_price` query non-empty with total quantity zero, and
the query then raises `ZeroDivisionError` rather than returning the no-data
sentinel or a number. -/
theorem volume_weight_stock_price_zero_quantity_raises :
    zeroQtyLog = [mkTrade stA 0 .buy 100 10] ∧
    zeroQtyLog.filter (specMatch "AAA" 5 10) ≠ [] ∧
    volume_weight_stock_price zeroQtyLog "AAA" 5 10 = .raised .zeroDivision := by
  refine ⟨rfl, ?_, ?_⟩
  · norm_num +decide [specMatch, zeroQtyLog, stA, mkTrade, mkStock, pyUpper]
  · norm_num +decide [volume_weight_stock_price, vwap, inWindow, zeroQtyLog,
      stA, mkTrade, mkStock, pyUpper]

lemma stripType_stock (t : Trade) : (stripType t).stock = t.stock := rfl

lemma vwap_strip (l : List Trade) : vwap (l.map stripType) = vwap l := by
  simp only [vwap, List.map_map]
  rfl

lemma isEmpty_map_strip (l : List Trade) :
    (l.map stripType).isEmpty = l.isEmpty := by
  cases l <;> rfl

lemma filter_inWindow_strip (symbol : String) (duration now : ℚ) (l : List Trade) :
    (l.map stripType).filter (inWindow symbol duration now) =
      (l.filter (inWindow symbol duration now)).map stripType := by
  rw [List.filter_map]
  rfl

lemma vwsp_strip (l : List Trade) (symbol : String) (duration now : ℚ) :
    volume_weight_stock_price (l.map stripType) symbol duration now =
      volume_weight_stock_price l symbol duration now := by
  simp only [volume_weight_stock_price, filter_inWindow_strip, isEmpty_map_strip,
    vwap_strip]

lemma runStep_strip (t : Trade) (acc : List (List Trade)) :
    runStep (stripType t) (acc.map (List.map stripType)) =
      (runStep t acc).map (List.map stripType) := by
  match acc with
  | [] => rfl
  | [] :: gs => rfl
  | (u :: g) :: gs =>
      simp only [List.map_cons, runStep, stripType_stock]
      split_ifs <;> simp

lemma groupRuns_strip (l : List Trade) :
    groupRuns (l.map stripType) = (groupRuns l).map (List.map stripType) := by
  induction l with
  | nil => rfl
  | cons t l ih =>
      show runStep (stripType t) (groupRuns (l.map stripType)) =
        (runStep t (groupRuns l)).map (List.map stripType)
      rw [ih, runStep_strip]

lemma groupVwaps_strip (gs : List (List Trade)) :
    groupVwaps (gs.map (List.map stripType)) = groupVwaps gs := by
  induction gs with
  | nil => rfl
  | cons g gs ih => simp only [List.map_cons, groupVwaps, vwap_strip, ih]

lemma asi_strip (l : List Trade) :
    all_share_index (l.map stripType) = all_share_index l := by
  simp only [all_share_index, isEmpty_map_strip, groupRuns_strip, groupVwaps_strip]

/-- C9: the buy/sell side never affects an analytic result — for any two
logs that agree trade-for-trade on everything except `trade_type` (that is,
they are identified by `stripType`), `vwap`, `volume_weight_stock_price`
and `all_share_index` return identical results. -/
theorem trade_type_never_affects_analytics (l1 l2 : List Trade)
    (symbol : String) (duration now : ℚ)
    (h : l1.map stripType = l2.map stripType) :
    vwap l1 = vwap l2 ∧
    volume_weight_stock_price l1 symbol duration now =
      volume_weight_stock_price l2 symbol duration now ∧
    all_share_index l1 = all_share_index l2 := by
  refine ⟨?_, ?_, ?_⟩
  · rw [← vwap_strip l1, h, vwap_strip]
  · rw [← vwsp_strip l1 symbol duration now, h, vwsp_strip]
  · rw [← asi_strip l1, h, asi_strip]

/-- Witness for C9: a one-trade log as a buy versus the same trade as a
sell gives the same three analytics. -/
theorem trade_type_never_affects_analytics_witness :
    vwap [mkTrade stA 1 .buy 2 0] = vwap [mkTrade stA 1 .sell 2 0] ∧
    volume_weight_stock_price [mkTrade stA 1 .buy 2 0] "AAA" 5 0 =
      volume_weight_stock_price [mkTrade stA 1 .sell 2 0] "AAA" 5 0 ∧
    all_share_index [mkTrade stA 1 .buy 2 0] =
      all_share_index [mkTrade stA 1 .sell 2 0] :=
  trade_type_never_affects_analytics _ _ "AAA" 5 0 rfl

end GBCE
